import Mathlib

/-!
Shallow embedding of the teaching examples in `dong-tran/docs` (Go), covering:

- the clean-architecture task service (`domain.Task`, `usecase.TaskUseCase`,
  `handler.TaskHandler`),
- the relationships-integration order domain (`order.Order`, `order.Money`,
  `usecase.OrderUseCase`),
- the DDD product example (`model.Product`, `service.PricingService`).

Go conventions are embedded as follows: a Go `error` return is `Option GoErr`
(`none` = `nil`); a Go `(T, error)` return where exactly one side is non-nil
is `Except GoErr T`; methods that mutate their receiver in place are functions
returning the updated value paired with the optional error (on error the
receiver is returned unchanged, exactly as the Go code leaves it unmutated);
`time.Time` values are opaque `Nat` timestamps supplied by the caller as a
`now` argument wherever the Go code calls `time.Now()`; Go `float64` money
amounts are embedded as `Rat` (the arithmetic the claims exercise - percent
of 100, comparisons against 0 - is exact in IEEE float64 as well); Go string
length `len(s)` is the UTF-8 byte length `String.utf8ByteSize`.

Repositories (implemented against live SQL in Go) are embedded as records of
state-passing functions over an abstract state `σ`; use-case functions
additionally return the list of repository calls they performed, so that
"repository method M is never called" is the statement that the returned call
list contains no `M` entry.
-/

/-- Errors produced by `errors.New(...)` in the embedded sources, one
constructor per distinct error value; `external` stands for an arbitrary
error coming back from a repository / payment backend. -/
inductive GoErr where
  | emptyTitle
  | titleTooLong
  | descriptionTooLong
  | taskNotFound
  | onlyPendingCanBePaid
  | onlyPaidCanBeShipped
  | cannotCancelShippedOrDelivered
  | negativeAmount
  | currencyMismatch
  | discountOutOfRange
  | priceMustBePositive
  | external (s : String)
  deriving DecidableEq, Repr

/-- Go `len(s)` on a string: the UTF-8 byte length. -/
def goLen (s : String) : Nat := s.utf8ByteSize

namespace CleanArch

/-- `domain.Task` from `clean-architecture-example/domain/task.go`. -/
structure Task where
  ID : Int
  Title : String
  Description : String
  Completed : Bool
  CreatedAt : Nat
  UpdatedAt : Nat
  deriving DecidableEq, Repr

/-- `domain.ValidateTitle`: empty titles are rejected with `ErrEmptyTitle`,
titles with `len > 200` with `ErrTitleTooLong`. -/
def ValidateTitle (title : String) : Option GoErr :=
  if title = "" then some .emptyTitle
  else if goLen title > 200 then some .titleTooLong
  else none

/-- `domain.ValidateDescription`: descriptions with `len > 1000` are rejected
with `ErrDescriptionTooLong`. -/
def ValidateDescription (description : String) : Option GoErr :=
  if goLen description > 1000 then some .descriptionTooLong
  else none

/-- `domain.NewTask`: validates title and description, then builds the task
with `Completed = false` and both timestamps set to `now`. -/
def NewTask (now : Nat) (title description : String) : Except GoErr Task :=
  match ValidateTitle title with
  | some e => .error e
  | none =>
    match ValidateDescription description with
    | some e => .error e
    | none =>
      .ok { ID := 0, Title := title, Description := description,
            Completed := false, CreatedAt := now, UpdatedAt := now }

/-- `(*Task).Update`: validates the new title and description; on success the
fields and `UpdatedAt` are replaced, on failure the task is unchanged (the Go
method returns the error before any assignment). -/
def Task.Update (now : Nat) (t : Task) (title description : String)
    (completed : Bool) : Except GoErr Task :=
  match ValidateTitle title with
  | some e => .error e
  | none =>
    match ValidateDescription description with
    | some e => .error e
    | none =>
      .ok { t with
            Title := title, Description := description,
            Completed := completed, UpdatedAt := now }

/-- One call to a `domain.TaskRepository` method, recorded so theorems can
speak about which repository methods a use case invoked. -/
inductive RepoCall where
  | create (t : Task)
  | getByID (id : Int)
  | getAll
  | update (t : Task)
  | delete (id : Int)
  deriving DecidableEq, Repr

/-- `domain.TaskRepository`, embedded as state-passing functions over an
abstract repository state `σ`. `create` returns the stored task (the Go
implementation assigns `task.ID` from `LastInsertId`); `getByID` is a pure
query; `update` and `delete` return the new state and an optional error. -/
structure TaskRepo (σ : Type) where
  create : σ → Task → σ × Except GoErr Task
  getByID : σ → Int → Except GoErr Task
  getAll : σ → Except GoErr (List Task)
  update : σ → Task → σ × Option GoErr
  delete : σ → Int → σ × Option GoErr

/-- `usecase.CreateTaskInput`. -/
structure CreateTaskInput where
  Title : String
  Description : String
  deriving DecidableEq, Repr

/-- `usecase.UpdateTaskInput`. -/
structure UpdateTaskInput where
  ID : Int
  Title : String
  Description : String
  Completed : Bool
  deriving DecidableEq, Repr

/-- `(*TaskUseCase).CreateTask`: `domain.NewTask`, then `taskRepo.Create`.
Returns the final repository state, the Go `(*Task, error)` result, and the
list of repository calls made. -/
def CreateTask {σ : Type} (r : TaskRepo σ) (now : Nat) (s : σ)
    (input : CreateTaskInput) : σ × Except GoErr Task × List RepoCall :=
  match NewTask now input.Title input.Description with
  | .error e => (s, .error e, [])
  | .ok task =>
    match r.create s task with
    | (s2, .error e) => (s2, .error e, [.create task])
    | (s2, .ok task2) => (s2, .ok task2, [.create task])

/-- `(*TaskUseCase).GetTask`: any `GetByID` failure is collapsed into the
sentinel `ErrTaskNotFound`. -/
def GetTask {σ : Type} (r : TaskRepo σ) (s : σ) (id : Int) :
    Except GoErr Task :=
  match r.getByID s id with
  | .error _ => .error .taskNotFound
  | .ok task => .ok task

/-- `(*TaskUseCase).UpdateTask`: look up by ID (`ErrTaskNotFound` on failure),
validate via `(*Task).Update`, then `taskRepo.Update`. -/
def UpdateTask {σ : Type} (r : TaskRepo σ) (now : Nat) (s : σ)
    (input : UpdateTaskInput) : σ × Except GoErr Task × List RepoCall :=
  match r.getByID s input.ID with
  | .error _ => (s, .error .taskNotFound, [.getByID input.ID])
  | .ok task =>
    match Task.Update now task input.Title input.Description input.Completed with
    | .error e => (s, .error e, [.getByID input.ID])
    | .ok task2 =>
      match r.update s task2 with
      | (s2, some e) => (s2, .error e, [.getByID input.ID, .update task2])
      | (s2, none) => (s2, .ok task2, [.getByID input.ID, .update task2])

/-- `(*TaskUseCase).DeleteTask`: look up by ID (`ErrTaskNotFound` on failure),
then `taskRepo.Delete`. -/
def DeleteTask {σ : Type} (r : TaskRepo σ) (s : σ) (id : Int) :
    σ × Option GoErr × List RepoCall :=
  match r.getByID s id with
  | .error _ => (s, some .taskNotFound, [.getByID id])
  | .ok _ =>
    match r.delete s id with
    | (s2, e) => (s2, e, [.getByID id, .delete id])

/-- `handler.UpdateTaskRequest` (the JSON body after a successful `Bind`). -/
structure UpdateTaskRequest where
  Title : String
  Description : String
  Completed : Bool
  deriving DecidableEq, Repr

/-- `(*TaskHandler).UpdateTask`, embedded from after the framework has parsed
the request: `idParam` is the result of `strconv.ParseInt` on the id path
parameter (`none` = parse error), `req` the result of `c.Bind` (`none` = bind
error). Returns the final repository state and the HTTP status code written. -/
def UpdateTaskHandler {σ : Type} (r : TaskRepo σ) (now : Nat) (s : σ)
    (idParam : Option Int) (req : Option UpdateTaskRequest) : σ × Nat :=
  match idParam with
  | none => (s, 400)
  | some id =>
    match req with
    | none => (s, 400)
    | some q =>
      match UpdateTask r now s
          { ID := id, Title := q.Title, Description := q.Description,
            Completed := q.Completed } with
      | (s2, .error e, _) => if e = .taskNotFound then (s2, 404) else (s2, 400)
      | (s2, .ok _, _) => (s2, 200)

/-- `(*TaskHandler).DeleteTask`, embedded the same way: `ErrTaskNotFound`
maps to 404, any other use-case error to 500, success to 204. -/
def DeleteTaskHandler {σ : Type} (r : TaskRepo σ) (s : σ)
    (idParam : Option Int) : σ × Nat :=
  match idParam with
  | none => (s, 400)
  | some id =>
    match DeleteTask r s id with
    | (s2, some e, _) => if e = .taskNotFound then (s2, 404) else (s2, 500)
    | (s2, none, _) => (s2, 204)

end CleanArch

namespace OrderDomain

/-- `order.OrderID` value object; the Go zero value `OrderID{}` is
`{ value := "" }`. -/
structure OrderID where
  value : String
  deriving DecidableEq, Repr

/-- `order.CustomerID` value object. -/
structure CustomerID where
  value : String
  deriving DecidableEq, Repr

/-- `order.Money` value object; the `float64` amount is embedded as `Rat`. -/
structure Money where
  amount : Rat
  currency : String
  deriving DecidableEq, Repr

/-- `order.NewMoney`: rejects negative amounts; an empty currency defaults
to `"USD"`. -/
def NewMoney (amount : Rat) (currency : String) : Except GoErr Money :=
  if amount < 0 then .error .negativeAmount
  else if currency = "" then .ok { amount := amount, currency := "USD" }
  else .ok { amount := amount, currency := currency }

/-- `Money.Add`: currency mismatch is an error, otherwise the sum goes back
through `NewMoney`. -/
def Money.Add (m other : Money) : Except GoErr Money :=
  if m.currency ≠ other.currency then .error .currencyMismatch
  else NewMoney (m.amount + other.amount) m.currency

/-- `order.OrderStatus`: the five string constants as an enumeration. -/
inductive OrderStatus where
  | pending
  | paid
  | shipped
  | delivered
  | cancelled
  deriving DecidableEq, Repr

/-- `order.OrderItem` entity. -/
structure OrderItem where
  productID : String
  productName : String
  quantity : Int
  price : Money
  deriving DecidableEq, Repr

/-- `order.Order` aggregate root; timestamps are opaque `Nat` values. -/
structure Order where
  id : OrderID
  customerID : CustomerID
  items : List OrderItem
  totalAmount : Money
  status : OrderStatus
  createdAt : Nat
  updatedAt : Nat
  deriving DecidableEq, Repr

/-- `(*Order).MarkAsPaid`: only a `PENDING` order may be paid; on success the
status becomes `PAID` and `updatedAt` is refreshed, on failure the order is
returned unchanged (the Go method mutates nothing before returning). -/
def MarkAsPaid (now : Nat) (o : Order) : Order × Option GoErr :=
  if o.status ≠ .pending then (o, some .onlyPendingCanBePaid)
  else ({ o with status := .paid, updatedAt := now }, none)

/-- `(*Order).Ship`: only a `PAID` order may be shipped. -/
def Ship (now : Nat) (o : Order) : Order × Option GoErr :=
  if o.status ≠ .paid then (o, some .onlyPaidCanBeShipped)
  else ({ o with status := .shipped, updatedAt := now }, none)

/-- `(*Order).Cancel`: `SHIPPED` and `DELIVERED` orders cannot be cancelled;
every other status transitions to `CANCELLED`. -/
def Cancel (now : Nat) (o : Order) : Order × Option GoErr :=
  if o.status = .shipped ∨ o.status = .delivered then
    (o, some .cannotCancelShippedOrDelivered)
  else ({ o with status := .cancelled, updatedAt := now }, none)

/-- One invocation of a domain method on an order, for stating temporal
properties about sequences of `MarkAsPaid` / `Ship` / `Cancel` calls. -/
inductive OrderAction where
  | pay
  | ship
  | cancel
  deriving DecidableEq, Repr

/-- Apply one domain method (with its `time.Now()` value) to an order,
keeping the resulting order state whether or not the call errored — exactly
the state the Go object is left in. -/
def applyAction (a : OrderAction) (now : Nat) (o : Order) : Order :=
  match a with
  | .pay => (MarkAsPaid now o).1
  | .ship => (Ship now o).1
  | .cancel => (Cancel now o).1

/-- Run a sequence of domain-method invocations on an order. -/
def runActions : List (OrderAction × Nat) → Order → Order
  | [], o => o
  | (a, n) :: rest, o => runActions rest (applyAction a n o)

/-- Events published through `patterns.EventPublisher` by the use case
(`order/events.go`). -/
inductive Event where
  | orderCreated (orderID customerID : String) (total : Rat)
  | orderPaid (orderID paymentMethod : String) (amount : Rat)
  | orderShipped (orderID trackingNumber : String)
  deriving DecidableEq, Repr

/-- `order.OrderRepository`, embedded as state-passing functions over an
abstract repository state `σ`. -/
structure OrderRepo (σ : Type) where
  save : σ → Order → σ × Option GoErr
  findByID : σ → OrderID → Except GoErr Order
  findByCustomerID : σ → CustomerID → Except GoErr (List Order)
  update : σ → Order → σ × Option GoErr

/-- A `patterns.PaymentStrategy`: its `ProcessPayment(amount, orderID)`
behaviour and its `GetName()`. -/
structure PaymentStrategy where
  processPayment : Rat → String → Option GoErr
  getName : String

/-- `(*OrderUseCase).ProcessPayment`: note the Go body calls
`uc.orderRepo.FindByID(order.OrderID{})` with the zero-value ID, not with the
`orderID` argument. Returns the final repository state, the Go error, and the
events published. -/
def ProcessPayment {σ : Type} (r : OrderRepo σ)
    (createPayment : String → Except GoErr PaymentStrategy) (now : Nat)
    (s : σ) (orderID paymentMethod : String) : σ × Option GoErr × List Event :=
  match r.findByID s { value := "" } with
  | .error e => (s, some e, [])
  | .ok ord =>
    match createPayment paymentMethod with
    | .error e => (s, some e, [])
    | .ok strat =>
      match strat.processPayment ord.totalAmount.amount ord.id.value with
      | some e => (s, some e, [])
      | none =>
        match MarkAsPaid now ord with
        | (_, some e) => (s, some e, [])
        | (ord2, none) =>
          match r.update s ord2 with
          | (s2, some e) => (s2, some e, [])
          | (s2, none) =>
            (s2, none,
             [Event.orderPaid ord2.id.value strat.getName
                ord2.totalAmount.amount])

/-- `(*OrderUseCase).GetOrder`: again `FindByID(order.OrderID{})`, ignoring
the `orderID` argument. -/
def GetOrder {σ : Type} (r : OrderRepo σ) (s : σ) (orderID : String) :
    Except GoErr Order :=
  r.findByID s { value := "" }

/-- `(*OrderUseCase).ShipOrder`: `FindByID(order.OrderID{})`, `Ship`,
`Update`, then publish `OrderShippedEvent`. -/
def ShipOrder {σ : Type} (r : OrderRepo σ) (now : Nat) (s : σ)
    (orderID trackingNumber : String) : σ × Option GoErr × List Event :=
  match r.findByID s { value := "" } with
  | .error e => (s, some e, [])
  | .ok ord =>
    match Ship now ord with
    | (_, some e) => (s, some e, [])
    | (ord2, none) =>
      match r.update s ord2 with
      | (s2, some e) => (s2, some e, [])
      | (s2, none) =>
        (s2, none, [Event.orderShipped ord2.id.value trackingNumber])

end OrderDomain

namespace DDD

/-- `model.Money` from the DDD example; unlike the order package there is no
currency defaulting. -/
structure Money where
  amount : Rat
  currency : String
  deriving DecidableEq, Repr

/-- `model.NewMoney`: rejects negative amounts. -/
def NewMoney (amount : Rat) (currency : String) : Except GoErr Money :=
  if amount < 0 then .error .negativeAmount
  else .ok { amount := amount, currency := currency }

/-- `model.Category` value object. -/
structure Category where
  name : String
  deriving DecidableEq, Repr

/-- `model.Product` aggregate root; the uuid id is an opaque string and
timestamps are opaque `Nat` values. -/
structure Product where
  id : String
  name : String
  description : String
  price : Money
  category : Category
  createdAt : Nat
  updatedAt : Nat
  deriving DecidableEq, Repr

/-- `(*Product).ChangePrice`: a non-positive new amount is rejected and the
product is unchanged; otherwise the price and `updatedAt` are replaced. -/
def ChangePrice (now : Nat) (p : Product) (newPrice : Money) :
    Product × Option GoErr :=
  if newPrice.amount ≤ 0 then (p, some .priceMustBePositive)
  else ({ p with price := newPrice, updatedAt := now }, none)

/-- `(*PricingService).ApplyDiscount`: range-check the percent, compute the
discounted amount, rebuild it as `Money`, then `ChangePrice`. The Go locals
`currentPrice`, `discountAmount` and `newAmount` are inlined:
`newAmount = currentPrice.Amount() - currentPrice.Amount()*(discountPercent/100)`. -/
def ApplyDiscount (now : Nat) (p : Product) (discountPercent : Rat) :
    Product × Option GoErr :=
  if discountPercent < 0 ∨ discountPercent > 100 then
    (p, some .discountOutOfRange)
  else
    match NewMoney (p.price.amount - p.price.amount * (discountPercent / 100))
        p.price.currency with
    | .error e => (p, some e)
    | .ok newPrice => ChangePrice now p newPrice

end DDD

/-! Concrete fixtures used by witness theorems: an in-memory task repository,
sample tasks, orders and products. -/

/-- A sample persisted task with ID 1. -/
def sampleTask : CleanArch.Task :=
  { ID := 1, Title := "t", Description := "", Completed := false,
    CreatedAt := 0, UpdatedAt := 0 }

/-- An in-memory `TaskRepository` over a list of tasks, used to instantiate
the use-case theorems on concrete inputs. -/
def testTaskRepo : CleanArch.TaskRepo (List CleanArch.Task) where
  create := fun s t => (s ++ [{ t with ID := 1 }], .ok { t with ID := 1 })
  getByID := fun s i =>
    match s.find? (fun t => t.ID = i) with
    | some t => .ok t
    | none => .error (.external "sql: no rows in result set")
  getAll := fun s => .ok s
  update := fun s t => (s.map (fun u => if u.ID = t.ID then t else u), none)
  delete := fun s i => (s.filter (fun t => t.ID ≠ i), none)

/-- A sample order with the given status. -/
def testOrder (st : OrderDomain.OrderStatus) : OrderDomain.Order :=
  { id := { value := "o1" }, customerID := { value := "c1" }, items := [],
    totalAmount := { amount := 10, currency := "USD" }, status := st,
    createdAt := 0, updatedAt := 0 }

/-- An order repository over a trivial state whose `findByID` always returns
a fixed pending order. -/
def testOrderRepo : OrderDomain.OrderRepo Unit where
  save := fun s _ => (s, none)
  findByID := fun _ _ => .ok (testOrder .pending)
  findByCustomerID := fun _ _ => .ok []
  update := fun s _ => (s, none)

/-- A payment factory that accepts only `"credit_card"`. -/
def testPaymentFactory (method : String) :
    Except GoErr OrderDomain.PaymentStrategy :=
  if method = "credit_card" then
    .ok { processPayment := fun _ _ => none, getName := "Credit Card" }
  else .error (.external "unsupported payment method")

/-- A sample product with the given price amount in USD. -/
def testProduct (amount : Rat) : DDD.Product :=
  { id := "p1", name := "Laptop", description := "",
    price := { amount := amount, currency := "USD" },
    category := { name := "Electronics" }, createdAt := 0, updatedAt := 0 }

/-! Claim theorems. -/

/-- C1: `MarkAsPaid` succeeds exactly when the order status is `PENDING`; in
that case the status becomes `PAID` (with `updatedAt` refreshed) and the
returned error is `nil`; for any other status it returns an error and leaves
the order — in particular its status — unchanged. -/
theorem markAsPaid_pending_spec (now : Nat) (o : OrderDomain.Order) :
    (o.status = .pending →
      OrderDomain.MarkAsPaid now o =
        ({ o with status := .paid, updatedAt := now }, none)) ∧
    (o.status ≠ .pending →
      OrderDomain.MarkAsPaid now o = (o, some .onlyPendingCanBePaid)) := by
  constructor <;> intro h <;> simp [OrderDomain.MarkAsPaid, h]

/-- Witness for C1 at concrete orders: a pending order becomes paid, a
shipped order is rejected unchanged. -/
theorem markAsPaid_pending_witness :
    OrderDomain.MarkAsPaid 5 (testOrder .pending) =
      ({ testOrder .pending with status := .paid, updatedAt := 5 }, none) ∧
    OrderDomain.MarkAsPaid 5 (testOrder .shipped) =
      (testOrder .shipped, some .onlyPendingCanBePaid) :=
  ⟨(markAsPaid_pending_spec 5 (testOrder .pending)).1 rfl,
   (markAsPaid_pending_spec 5 (testOrder .shipped)).2 (by decide)⟩

/-- C2: `ValidateTitle` returns `nil` exactly when the title is non-empty and
of length at most 200 (length being Go `len`, i.e. the UTF-8 byte count,
which coincides with the character count for ASCII titles); the empty title
yields `ErrEmptyTitle` and any longer title yields `ErrTitleTooLong`. -/
theorem validateTitle_spec :
    (∀ title : String,
      CleanArch.ValidateTitle title = none ↔ title ≠ "" ∧ goLen title ≤ 200) ∧
    CleanArch.ValidateTitle "" = some .emptyTitle ∧
    (∀ title : String, goLen title > 200 →
      CleanArch.ValidateTitle title = some .titleTooLong) := by
  refine ⟨?_, by decide, ?_⟩
  · intro title
    unfold CleanArch.ValidateTitle
    constructor
    · intro h
      by_cases h1 : title = ""
      · simp [h1] at h
      · by_cases h2 : goLen title > 200
        · simp [h1, h2] at h
        · exact ⟨h1, by omega⟩
    · rintro ⟨h1, h2⟩
      rw [if_neg h1, if_neg (by omega)]
  · intro title h
    have h1 : title ≠ "" := by
      intro he
      subst he
      have h0 : goLen "" = 0 := by decide
      omega
    unfold CleanArch.ValidateTitle
    rw [if_neg h1, if_pos h]

set_option maxRecDepth 4000 in
/-- Witness for C2: the third conjunct applied to a concrete 201-byte
title. -/
theorem validateTitle_witness :
    goLen (String.mk (List.replicate 201 'a')) > 200 ∧
    CleanArch.ValidateTitle (String.mk (List.replicate 201 'a')) =
      some .titleTooLong :=
  ⟨by decide, validateTitle_spec.2.2 _ (by decide)⟩

/-- C4: `GetOrder`, `ProcessPayment` and `ShipOrder` do not depend on their
`orderID` argument — each looks the order up with the zero-value
`OrderID{}` — so on any two different `orderID` strings (all other state
equal) they produce identical results. -/
theorem orderUseCase_ignores_orderID {σ : Type} (r : OrderDomain.OrderRepo σ)
    (createPayment : String → Except GoErr OrderDomain.PaymentStrategy)
    (now : Nat) (s : σ) (id1 id2 paymentMethod trackingNumber : String)
    (h : id1 ≠ id2) :
    OrderDomain.GetOrder r s id1 = OrderDomain.GetOrder r s id2 ∧
    OrderDomain.ProcessPayment r createPayment now s id1 paymentMethod =
      OrderDomain.ProcessPayment r createPayment now s id2 paymentMethod ∧
    OrderDomain.ShipOrder r now s id1 trackingNumber =
      OrderDomain.ShipOrder r now s id2 trackingNumber :=
  ⟨rfl, rfl, rfl⟩

/-- Witness for C4 at two concrete distinct order IDs against the in-memory
order repository. -/
theorem orderUseCase_ignores_orderID_witness :
    "order-a" ≠ "order-b" ∧
    OrderDomain.GetOrder testOrderRepo () "order-a" =
      OrderDomain.GetOrder testOrderRepo () "order-b" ∧
    OrderDomain.ProcessPayment testOrderRepo testPaymentFactory 3 ()
        "order-a" "credit_card" =
      OrderDomain.ProcessPayment testOrderRepo testPaymentFactory 3 ()
        "order-b" "credit_card" ∧
    OrderDomain.ShipOrder testOrderRepo 3 () "order-a" "TRACK1" =
      OrderDomain.ShipOrder testOrderRepo 3 () "order-b" "TRACK1" :=
  ⟨by decide,
   orderUseCase_ignores_orderID testOrderRepo testPaymentFactory 3 ()
     "order-a" "order-b" "credit_card" "TRACK1" (by decide)⟩

/-- C7: `GetTask` collapses every `GetByID` failure — whatever the error —
into the sentinel `ErrTaskNotFound`, and returns the task with a `nil` error
on a successful lookup. -/
theorem getTask_collapses_errors {σ : Type} (r : CleanArch.TaskRepo σ)
    (s : σ) (id : Int) :
    (∀ e, r.getByID s id = .error e →
      CleanArch.GetTask r s id = .error .taskNotFound) ∧
    (∀ t, r.getByID s id = .ok t → CleanArch.GetTask r s id = .ok t) := by
  constructor <;> intro x h <;> simp [CleanArch.GetTask, h]

/-- Witness for C7: a lookup in the empty in-memory repository fails with a
driver-level error and `GetTask` reports `ErrTaskNotFound`. -/
theorem getTask_collapses_errors_witness :
    testTaskRepo.getByID [] 7 = .error (.external "sql: no rows in result set") ∧
    CleanArch.GetTask testTaskRepo [] 7 = .error .taskNotFound :=
  ⟨rfl, (getTask_collapses_errors testTaskRepo [] 7).1 _ rfl⟩

/-- C10: order-package `Money` values built through the public constructors
have non-negative amounts: `NewMoney` errors exactly when the requested
amount is negative (and otherwise stores it), and `Money.Add` errors on a
currency mismatch and otherwise preserves non-negativity of the amount. -/
theorem money_nonneg_spec :
    (∀ (a : Rat) (c : String),
      (∃ m, OrderDomain.NewMoney a c = .ok m) ↔ 0 ≤ a) ∧
    (∀ (a : Rat) (c : String) (m : OrderDomain.Money),
      OrderDomain.NewMoney a c = .ok m → 0 ≤ m.amount) ∧
    (∀ m other : OrderDomain.Money, m.currency ≠ other.currency →
      OrderDomain.Money.Add m other = .error .currencyMismatch) ∧
    (∀ m other res : OrderDomain.Money, 0 ≤ m.amount → 0 ≤ other.amount →
      OrderDomain.Money.Add m other = .ok res → 0 ≤ res.amount) := by
  have hok : ∀ (a : Rat) (c : String) (m : OrderDomain.Money),
      OrderDomain.NewMoney a c = .ok m → 0 ≤ m.amount := by
    intro a c m h
    unfold OrderDomain.NewMoney at h
    split_ifs at h with h1 h2
    · cases h
      exact le_of_not_lt h1
    · cases h
      exact le_of_not_lt h1
  refine ⟨?_, hok, ?_, ?_⟩
  · intro a c
    unfold OrderDomain.NewMoney
    split_ifs with h1 h2
    · constructor
      · rintro ⟨m, hm⟩
        exact absurd hm (by simp)
      · intro h
        exact absurd h (not_le.mpr h1)
    · constructor
      · intro _
        exact le_of_not_lt h1
      · intro _
        exact ⟨_, rfl⟩
    · constructor
      · intro _
        exact le_of_not_lt h1
      · intro _
        exact ⟨_, rfl⟩
  · intro m other h
    simp [OrderDomain.Money.Add, h]
  · intro m other res hm hother hadd
    unfold OrderDomain.Money.Add at hadd
    split_ifs at hadd with h
    exact hok _ _ _ hadd

/-- Witness for C10: adding two concrete USD amounts through `Money.Add`
yields a non-negative amount, and a USD/EUR mismatch errors. -/
theorem money_nonneg_witness :
    OrderDomain.Money.Add { amount := 2, currency := "USD" }
        { amount := 3, currency := "USD" } =
      .ok { amount := 5, currency := "USD" } ∧
    (0 : Rat) ≤ ({ amount := 5, currency := "USD" } :
      OrderDomain.Money).amount ∧
    OrderDomain.Money.Add { amount := 2, currency := "USD" }
        { amount := 3, currency := "EUR" } = .error .currencyMismatch :=
  have hadd : OrderDomain.Money.Add { amount := 2, currency := "USD" }
      { amount := 3, currency := "USD" } =
      .ok { amount := 5, currency := "USD" } := by
    simp [OrderDomain.Money.Add, OrderDomain.NewMoney]
    norm_num
  ⟨hadd,
   money_nonneg_spec.2.2.2 { amount := 2, currency := "USD" }
     { amount := 3, currency := "USD" } { amount := 5, currency := "USD" }
     (by norm_num) (by norm_num) hadd,
   money_nonneg_spec.2.2.1 { amount := 2, currency := "USD" }
     { amount := 3, currency := "EUR" } (by decide)⟩

/-- Normal form of `(*Task).Update` as one nested conditional, used to reason
about the validation checks. -/
theorem taskUpdate_ite (now : Nat) (t : CleanArch.Task)
    (title description : String) (completed : Bool) :
    CleanArch.Task.Update now t title description completed =
      (if title = "" then .error .emptyTitle
       else if goLen title > 200 then .error .titleTooLong
       else if goLen description > 1000 then .error .descriptionTooLong
       else .ok { t with
                  Title := title, Description := description,
                  Completed := completed, UpdatedAt := now }) := by
  unfold CleanArch.Task.Update CleanArch.ValidateTitle
    CleanArch.ValidateDescription
  split_ifs <;> rfl

/-- C3: `CreateTask` on an input with empty title returns `ErrEmptyTitle`,
leaves the repository state unchanged and performs no repository call — in
particular `Create` is never called, so no task is persisted. -/
theorem createTask_empty_title {σ : Type} (r : CleanArch.TaskRepo σ)
    (now : Nat) (s : σ) (input : CleanArch.CreateTaskInput)
    (h : input.Title = "") :
    CleanArch.CreateTask r now s input = (s, .error .emptyTitle, []) := by
  unfold CleanArch.CreateTask CleanArch.NewTask
  simp [h, CleanArch.ValidateTitle]

/-- Witness for C3: creating a task with empty title against the in-memory
repository fails with `ErrEmptyTitle` and no repository call. -/
theorem createTask_empty_title_witness :
    ({ Title := "", Description := "d" } : CleanArch.CreateTaskInput).Title
      = "" ∧
    CleanArch.CreateTask testTaskRepo 0 [] { Title := "", Description := "d" }
      = ([], .error .emptyTitle, []) :=
  ⟨rfl, createTask_empty_title testTaskRepo 0 [] _ rfl⟩

/-- C5: `UpdateTask` is the linear sequence look-up / validate / update:
a failed `GetByID` yields `ErrTaskNotFound` with no `Update` call; a failed
field check returns that validation error with no `Update` call; when the
checks pass `Update` is called exactly once with the modified task, whose
success returns that task; and the field checks are exactly title non-empty,
title length ≤ 200, description length ≤ 1000 (Go `len`). -/
theorem updateTask_spec {σ : Type} (r : CleanArch.TaskRepo σ) (now : Nat)
    (s : σ) (input : CleanArch.UpdateTaskInput) :
    (∀ e, r.getByID s input.ID = .error e →
      CleanArch.UpdateTask r now s input =
        (s, .error .taskNotFound, [.getByID input.ID])) ∧
    (∀ task e, r.getByID s input.ID = .ok task →
      CleanArch.Task.Update now task input.Title input.Description
        input.Completed = .error e →
      CleanArch.UpdateTask r now s input =
        (s, .error e, [.getByID input.ID])) ∧
    (∀ task task2 s2, r.getByID s input.ID = .ok task →
      CleanArch.Task.Update now task input.Title input.Description
        input.Completed = .ok task2 →
      r.update s task2 = (s2, none) →
      CleanArch.UpdateTask r now s input =
        (s2, .ok task2, [.getByID input.ID, .update task2])) ∧
    (∀ task task2 s2 e, r.getByID s input.ID = .ok task →
      CleanArch.Task.Update now task input.Title input.Description
        input.Completed = .ok task2 →
      r.update s task2 = (s2, some e) →
      CleanArch.UpdateTask r now s input =
        (s2, .error e, [.getByID input.ID, .update task2])) ∧
    (∀ task, (∃ task2, CleanArch.Task.Update now task input.Title
        input.Description input.Completed = .ok task2) ↔
      input.Title ≠ "" ∧ goLen input.Title ≤ 200 ∧
        goLen input.Description ≤ 1000) ∧
    (∀ task e, CleanArch.Task.Update now task input.Title input.Description
        input.Completed = .error e →
      (input.Title = "" ∧ e = .emptyTitle) ∨
      (goLen input.Title > 200 ∧ e = .titleTooLong) ∨
      (goLen input.Description > 1000 ∧ e = .descriptionTooLong)) := by
  refine ⟨?_, ?_, ?_, ?_, ?_, ?_⟩
  · intro e h
    simp [CleanArch.UpdateTask, h]
  · intro task e h1 h2
    simp [CleanArch.UpdateTask, h1, h2]
  · intro task task2 s2 h1 h2 h3
    simp [CleanArch.UpdateTask, h1, h2, h3]
  · intro task task2 s2 e h1 h2 h3
    simp [CleanArch.UpdateTask, h1, h2, h3]
  · intro task
    rw [taskUpdate_ite]
    constructor
    · rintro ⟨task2, ht⟩
      split_ifs at ht with h1 h2 h3
      exact ⟨h1, by omega, by omega⟩
    · rintro ⟨h1, h2, h3⟩
      rw [if_neg h1, if_neg (by omega), if_neg (by omega)]
      exact ⟨_, rfl⟩
  · intro task e ht
    rw [taskUpdate_ite] at ht
    split_ifs at ht with h1 h2 h3
    · cases ht
      exact Or.inl ⟨h1, rfl⟩
    · cases ht
      exact Or.inr (Or.inl ⟨h2, rfl⟩)
    · cases ht
      exact Or.inr (Or.inr ⟨h3, rfl⟩)

/-- `sampleTask` after `Task.Update 7 _ "new title" "desc" true`. -/
def sampleTaskUpdated : CleanArch.Task :=
  { ID := 1, Title := "new title", Description := "desc", Completed := true,
    CreatedAt := 0, UpdatedAt := 7 }

/-- Witness for C5: against the in-memory repository holding `sampleTask`,
an update with valid fields performs exactly `GetByID` then `Update` and
returns the updated task. -/
theorem updateTask_spec_witness :
    testTaskRepo.getByID [sampleTask] 1 = .ok sampleTask ∧
    CleanArch.Task.Update 7 sampleTask "new title" "desc" true =
      .ok sampleTaskUpdated ∧
    testTaskRepo.update [sampleTask] sampleTaskUpdated =
      ([sampleTaskUpdated], none) ∧
    CleanArch.UpdateTask testTaskRepo 7 [sampleTask]
        { ID := 1, Title := "new title", Description := "desc",
          Completed := true } =
      ([sampleTaskUpdated], .ok sampleTaskUpdated,
        [.getByID 1, .update sampleTaskUpdated]) :=
  ⟨rfl, rfl, rfl,
   (updateTask_spec testTaskRepo 7 [sampleTask]
       { ID := 1, Title := "new title", Description := "desc",
         Completed := true }).2.2.1
     sampleTask sampleTaskUpdated [sampleTaskUpdated] rfl rfl rfl⟩

/-- C6: with a valid numeric id (and a bound body), the update handler maps
`ErrTaskNotFound` from the use case to HTTP 404 and any other use-case error
to 400; the delete handler maps `ErrTaskNotFound` to 404 and any other error
to 500. -/
theorem handler_statusCodes_spec {σ : Type} (r : CleanArch.TaskRepo σ)
    (now : Nat) (s : σ) (id : Int) (req : CleanArch.UpdateTaskRequest) :
    ((CleanArch.UpdateTask r now s
        { ID := id, Title := req.Title, Description := req.Description,
          Completed := req.Completed }).2.1 = .error .taskNotFound →
      (CleanArch.UpdateTaskHandler r now s (some id) (some req)).2 = 404) ∧
    (∀ e, e ≠ .taskNotFound →
      (CleanArch.UpdateTask r now s
        { ID := id, Title := req.Title, Description := req.Description,
          Completed := req.Completed }).2.1 = .error e →
      (CleanArch.UpdateTaskHandler r now s (some id) (some req)).2 = 400) ∧
    ((CleanArch.DeleteTask r s id).2.1 = some .taskNotFound →
      (CleanArch.DeleteTaskHandler r s (some id)).2 = 404) ∧
    (∀ e, e ≠ .taskNotFound →
      (CleanArch.DeleteTask r s id).2.1 = some e →
      (CleanArch.DeleteTaskHandler r s (some id)).2 = 500) := by
  refine ⟨?_, ?_, ?_, ?_⟩
  · intro h
    rcases hu : CleanArch.UpdateTask r now s
        { ID := id, Title := req.Title, Description := req.Description,
          Completed := req.Completed } with ⟨s2, res, calls⟩
    rw [hu] at h
    simp at h
    subst h
    simp [CleanArch.UpdateTaskHandler, hu]
  · intro e he h
    rcases hu : CleanArch.UpdateTask r now s
        { ID := id, Title := req.Title, Description := req.Description,
          Completed := req.Completed } with ⟨s2, res, calls⟩
    rw [hu] at h
    simp at h
    subst h
    simp [CleanArch.UpdateTaskHandler, hu, he]
  · intro h
    rcases hu : CleanArch.DeleteTask r s id with ⟨s2, res, calls⟩
    rw [hu] at h
    simp at h
    subst h
    simp [CleanArch.DeleteTaskHandler, hu]
  · intro e he h
    rcases hu : CleanArch.DeleteTask r s id with ⟨s2, res, calls⟩
    rw [hu] at h
    simp at h
    subst h
    simp [CleanArch.DeleteTaskHandler, hu, he]

/-- A repository whose `Delete` fails with a driver-level error, to exercise
the 500 branch of the delete handler. -/
def failingDeleteRepo : CleanArch.TaskRepo (List CleanArch.Task) :=
  { testTaskRepo with
    delete := fun s _ => (s, some (.external "database is locked")) }

/-- Witness for C6: a missing task gives 404 on update and delete, an empty
title gives 400 on update, and a failing `Delete` gives 500. -/
theorem handler_statusCodes_witness :
    (CleanArch.UpdateTask testTaskRepo 0 []
        { ID := 7, Title := "x", Description := "", Completed := false }).2.1
      = .error .taskNotFound ∧
    (CleanArch.UpdateTaskHandler testTaskRepo 0 [] (some 7)
        (some { Title := "x", Description := "", Completed := false })).2
      = 404 ∧
    (CleanArch.UpdateTask testTaskRepo 0 [sampleTask]
        { ID := 1, Title := "", Description := "", Completed := false }).2.1
      = .error .emptyTitle ∧
    (CleanArch.UpdateTaskHandler testTaskRepo 0 [sampleTask] (some 1)
        (some { Title := "", Description := "", Completed := false })).2
      = 400 ∧
    (CleanArch.DeleteTask testTaskRepo [] 7).2.1 = some .taskNotFound ∧
    (CleanArch.DeleteTaskHandler testTaskRepo [] (some 7)).2 = 404 ∧
    (CleanArch.DeleteTask failingDeleteRepo [sampleTask] 1).2.1
      = some (.external "database is locked") ∧
    (CleanArch.DeleteTaskHandler failingDeleteRepo [sampleTask] (some 1)).2
      = 500 :=
  ⟨rfl,
   (handler_statusCodes_spec testTaskRepo 0 [] 7
       { Title := "x", Description := "", Completed := false }).1 rfl,
   rfl,
   (handler_statusCodes_spec testTaskRepo 0 [sampleTask] 1
       { Title := "", Description := "", Completed := false }).2.1
     .emptyTitle (by decide) rfl,
   rfl,
   (handler_statusCodes_spec testTaskRepo 0 [] 7
       { Title := "x", Description := "", Completed := false }).2.2.1 rfl,
   rfl,
   (handler_statusCodes_spec failingDeleteRepo 0 [sampleTask] 1
       { Title := "x", Description := "", Completed := false }).2.2.2
     (.external "database is locked") (by decide) rfl⟩

/-- On an order whose status is `SHIPPED` or `DELIVERED`, every domain method
(`MarkAsPaid`, `Ship`, `Cancel`) fails its guard and leaves the order
unchanged. -/
theorem applyAction_frozen (a : OrderDomain.OrderAction) (n : Nat)
    (o : OrderDomain.Order)
    (h : o.status = .shipped ∨ o.status = .delivered) :
    OrderDomain.applyAction a n o = o := by
  rcases h with h | h <;> cases a <;>
    simp [OrderDomain.applyAction, OrderDomain.MarkAsPaid, OrderDomain.Ship,
      OrderDomain.Cancel, h]

/-- A `SHIPPED` or `DELIVERED` order is a fixed point of every sequence of
domain-method invocations. -/
theorem runActions_frozen (acts : List (OrderDomain.OrderAction × Nat))
    (o : OrderDomain.Order)
    (h : o.status = .shipped ∨ o.status = .delivered) :
    OrderDomain.runActions acts o = o := by
  induction acts generalizing o with
  | nil => rfl
  | cons p rest ih =>
    obtain ⟨a, n⟩ := p
    rw [OrderDomain.runActions, applyAction_frozen a n o h]
    exact ih o h

/-- C8: `Cancel` on a `SHIPPED` or `DELIVERED` order returns an error and
leaves the order unchanged; in every other status it sets the status to
`CANCELLED` and returns `nil`; and under any sequence of `MarkAsPaid`, `Ship`
and `Cancel` calls an order that is `SHIPPED` or `DELIVERED` never reaches
status `CANCELLED`. -/
theorem cancel_never_from_shipped_spec :
    (∀ (now : Nat) (o : OrderDomain.Order),
      o.status = .shipped ∨ o.status = .delivered →
      OrderDomain.Cancel now o = (o, some .cannotCancelShippedOrDelivered)) ∧
    (∀ (now : Nat) (o : OrderDomain.Order),
      o.status ≠ .shipped → o.status ≠ .delivered →
      OrderDomain.Cancel now o =
        ({ o with status := .cancelled, updatedAt := now }, none)) ∧
    (∀ (o : OrderDomain.Order),
      o.status = .shipped ∨ o.status = .delivered →
      ∀ acts : List (OrderDomain.OrderAction × Nat),
        (OrderDomain.runActions acts o).status ≠ .cancelled) := by
  refine ⟨?_, ?_, ?_⟩
  · intro now o h
    unfold OrderDomain.Cancel
    rw [if_pos h]
  · intro now o h1 h2
    unfold OrderDomain.Cancel
    rw [if_neg (not_or.mpr ⟨h1, h2⟩)]
  · intro o h acts
    rw [runActions_frozen acts o h]
    rcases h with h | h <;> simp [h]

/-- Witness for C8: a shipped order rejects `Cancel` unchanged and stays
non-cancelled under a concrete action sequence; a pending order cancels. -/
theorem cancel_never_from_shipped_witness :
    OrderDomain.Cancel 1 (testOrder .shipped) =
      (testOrder .shipped, some .cannotCancelShippedOrDelivered) ∧
    OrderDomain.Cancel 1 (testOrder .pending) =
      ({ testOrder .pending with status := .cancelled, updatedAt := 1 },
        none) ∧
    (OrderDomain.runActions [(.cancel, 1), (.pay, 2), (.ship, 3)]
        (testOrder .shipped)).status ≠ .cancelled :=
  ⟨cancel_never_from_shipped_spec.1 1 (testOrder .shipped) (Or.inl rfl),
   cancel_never_from_shipped_spec.2.1 1 (testOrder .pending) (by decide)
     (by decide),
   cancel_never_from_shipped_spec.2.2 (testOrder .shipped) (Or.inl rfl)
     [(.cancel, 1), (.pay, 2), (.ship, 3)]⟩

/-- C9: on a product with positive price, `ApplyDiscount` with percent 100
passes the range check but fails with the `ChangePrice` error ("price must
be positive"), because the discounted amount is exactly 0; and whenever
`ApplyDiscount` returns an error — out-of-range percent, rejected money or
rejected new price — the product's `price` and `updatedAt` are unchanged. -/
theorem applyDiscount_hundred_spec (now : Nat) (p : DDD.Product)
    (h : 0 < p.price.amount) :
    DDD.ApplyDiscount now p 100 = (p, some .priceMustBePositive) ∧
    (∀ (q : DDD.Product) (d : Rat) (n : Nat) (e : GoErr),
      (DDD.ApplyDiscount n q d).2 = some e →
      (DDD.ApplyDiscount n q d).1.price = q.price ∧
      (DDD.ApplyDiscount n q d).1.updatedAt = q.updatedAt) := by
  constructor
  · have hz : p.price.amount - p.price.amount * ((100 : Rat) / 100) = 0 := by
      rw [show ((100 : Rat) / 100) = 1 by norm_num, mul_one, sub_self]
    unfold DDD.ApplyDiscount
    rw [if_neg (by norm_num), hz]
    unfold DDD.NewMoney
    rw [if_neg (by norm_num : ¬(0 : Rat) < 0)]
    show DDD.ChangePrice now p { amount := 0, currency := p.price.currency }
      = _
    unfold DDD.ChangePrice
    rw [if_pos (by norm_num :
      ({ amount := (0 : Rat), currency := p.price.currency } :
        DDD.Money).amount ≤ 0)]
  · intro q d n e
    unfold DDD.ApplyDiscount
    split_ifs with hd
    · intro _
      exact ⟨rfl, rfl⟩
    · cases hm : DDD.NewMoney
          (q.price.amount - q.price.amount * (d / 100)) q.price.currency with
      | error e2 =>
        intro _
        exact ⟨rfl, rfl⟩
      | ok np =>
        unfold DDD.ChangePrice
        by_cases hp : np.amount ≤ 0
        · simp [hp]
        · simp [hp]

/-- Witness for C9: a 100% discount on a 50-USD product is rejected by
`ChangePrice` and the product is unchanged. -/
theorem applyDiscount_hundred_witness :
    (0 : Rat) < (testProduct 50).price.amount ∧
    DDD.ApplyDiscount 1 (testProduct 50) 100 =
      (testProduct 50, some .priceMustBePositive) :=
  ⟨by norm_num [testProduct],
   (applyDiscount_hundred_spec 1 (testProduct 50)
     (by norm_num [testProduct])).1⟩
